import Mathlib

/-
Verification development for the MilesScrape scan-job orchestrator and
milestone scoring pipeline.

The embedding translates the Python sources into Lean:
 * `src/api/routes.py` — `start_scan`, `cancel_scan` route handlers;
 * `src/services/linkedin_scraper.py` — the worker (`run_scan`,
   `update_scan_progress`, `check_if_scan_cancelled`, `complete_scan`,
   `fail_scan`, `start_scan_async`);
 * `src/modules/leads.py` — `_filter_lead`, `_score_lead`, and the
   acceptance logic of `process_posts`.

The durable store holds at most one job record per id; since every claim
is about a single job, the store is modelled as `Option ScanData`.
External collaborators (candidate discovery, milestone extractor, NLP
client, wall clock) are surfaced as explicit inputs: a company is its
list of milestone-post confidence scores, the NLP relevance client is a
function argument, and `datetime.now()` is an explicit integer day
count `now`.
-/

/-- Job status values as stored in the `status` field
(`routes.py` / `linkedin_scraper.py`). -/
inductive ScanStatus
  | pending
  | in_progress
  | completed
  | failed
  | cancelled
deriving DecidableEq

/-- The `stats` sub-dictionary of a scan record
(`routes.py` lines 69-73: companies, posts, leads counters). -/
structure ScanStats where
  companies : Nat
  posts : Nat
  leads : Nat
deriving DecidableEq

/-- A scan job record as persisted by the storage service: the scan
configuration built in `start_scan` (`routes.py` lines 60-74) plus the
fields mutated by the worker.  Timestamp strings and the log (a separate
storage key) are omitted; they are never read by any modelled branch. -/
structure ScanData where
  location : String
  radius_km : Int
  days_back : Int
  milestone_types : List String
  status : ScanStatus
  progress : Nat
  stats : ScanStats
  error : Option String
deriving DecidableEq

/-- `storage_service.save_scan`: a full replace of the stored record. -/
def save_scan (d : ScanData) (_s : Option ScanData) : Option ScanData :=
  some d

/-- Python truthiness of an optional string (`if not location`): absent
and empty strings are falsy. -/
def strTruthy : Option String → Bool
  | none => false
  | some s => !(s == "")

/-- Body of the request to POST /scan: `data.get` fields with their
defaults applied in the handler (`routes.py` lines 48-51). -/
structure ScanRequest where
  location : Option String
  radius_km : Option Int
  days_back : Option Int
  milestone_types : Option (List String)
deriving DecidableEq

/-- Default milestone type list (`routes.py` line 51). -/
def default_milestone_types : List String :=
  ["funding", "expansion", "anniversary", "award", "launch"]

/-- The scan configuration record built by `start_scan`
(`routes.py` lines 60-74): status `pending`, progress 0, zeroed stats. -/
def scan_config (req : ScanRequest) : ScanData :=
  { location := req.location.getD ""
    radius_km := req.radius_km.getD 50
    days_back := req.days_back.getD 30
    milestone_types := req.milestone_types.getD default_milestone_types
    status := ScanStatus.pending
    progress := 0
    stats := ⟨0, 0, 0⟩
    error := none }

/-- The POST /scan handler (`routes.py` lines 41-89): rejects a falsy
location with HTTP 400 before any record is written; otherwise persists
the pending configuration record.  The second component is the HTTP
status code of the response. -/
def start_scan (req : ScanRequest) (s : Option ScanData) :
    Option ScanData × Nat :=
  if ¬ strTruthy req.location then (s, 400)
  else (save_scan (scan_config req) s, 200)

/-- The POST /scan/<id>/cancel handler (`routes.py` lines 108-137):
404 when the record is absent, 400 (no write) when the status is not
`pending`/`in_progress`, otherwise writes status `cancelled` (200). -/
def cancel_scan (s : Option ScanData) : Option ScanData × Nat :=
  match s with
  | none => (none, 404)
  | some d =>
    if d.status ≠ ScanStatus.pending ∧ d.status ≠ ScanStatus.in_progress then
      (some d, 400)
    else
      (save_scan { d with status := ScanStatus.cancelled } s, 200)

/-- `start_scan_async` (`linkedin_scraper.py` lines 127-131): reads the
record and unconditionally writes status `in_progress`. -/
def start_scan_async (s : Option ScanData) : Option ScanData :=
  match s with
  | none => none
  | some d => save_scan { d with status := ScanStatus.in_progress } s

/-- The in-memory mutation `update_scan_progress` performs on the
snapshot it read (`linkedin_scraper.py` line 390). -/
def update_scan_progress_body (snapshot : ScanData) (p : Nat) : ScanData :=
  { snapshot with progress := p }

/-- `update_scan_progress` (`linkedin_scraper.py` lines 372-398): read
the record, overwrite the progress field on the snapshot, save the whole
snapshot back.  There is no check of the stored status. -/
def update_scan_progress (p : Nat) (s : Option ScanData) : Option ScanData :=
  match s with
  | none => none
  | some d => save_scan (update_scan_progress_body d p) s

/-- The inline stats read-modify-write in `run_scan`
(`linkedin_scraper.py` lines 230-233): sets `stats.posts` and
`stats.leads` on the freshly read record and saves it. -/
def update_scan_stats (tp tl : Nat) (s : Option ScanData) : Option ScanData :=
  match s with
  | none => none
  | some d =>
    save_scan { d with stats := { d.stats with posts := tp, leads := tl } } s

/-- The inline companies-count read-modify-write in `run_scan`
(`linkedin_scraper.py` lines 168-170). -/
def update_scan_companies (nc : Nat) (s : Option ScanData) : Option ScanData :=
  match s with
  | none => none
  | some d =>
    save_scan { d with stats := { d.stats with companies := nc } } s

/-- `check_if_scan_cancelled` (`linkedin_scraper.py` lines 430-452).
The argument models the outcome of the guarded storage read: a raised
exception (`Except.error`) hits the `except` branch and returns `False`;
a successful read of an absent record returns `True`; otherwise the
stored status is compared with `cancelled`. -/
def check_if_scan_cancelled (r : Except Unit (Option ScanData)) : Bool :=
  match r with
  | Except.error _ => false
  | Except.ok none => true
  | Except.ok (some d) => decide (d.status = ScanStatus.cancelled)

/-- `complete_scan` (`linkedin_scraper.py` lines 454-493): writes status
`completed`, progress 100 and the final post/lead totals — with no check
of the stored status. -/
def complete_scan (total_posts total_leads : Nat) (s : Option ScanData) :
    Option ScanData :=
  match s with
  | none => none
  | some d =>
    save_scan
      { d with status := ScanStatus.completed, progress := 100,
               stats := { d.stats with posts := total_posts, leads := total_leads } } s

/-- `fail_scan` (`linkedin_scraper.py` lines 495-528): writes status
`failed` and the error message — with no check of the stored status. -/
def fail_scan (msg : String) (s : Option ScanData) : Option ScanData :=
  match s with
  | none => none
  | some d =>
    save_scan { d with status := ScanStatus.failed, error := some msg } s

/-- The lead-creation threshold in `run_scan`
(`linkedin_scraper.py` line 200: `post['score'] >= 0.75`). -/
def leadThreshold : ℚ := 3 / 4

/-- Number of leads created from one company's milestone posts: a lead is
saved exactly for the posts whose confidence score reaches the threshold
(`linkedin_scraper.py` lines 196-220).  A post is modelled by its score. -/
def countLeads (scores : List ℚ) : Nat :=
  (scores.filter fun q => decide (leadThreshold ≤ q)).length

/-- An environment step: between any two atomic storage operations of the
worker, an API caller may execute the cancel route.  `b` says whether a
cancel request arrives at this point. -/
def envStep (b : Bool) (s : Option ScanData) : Option ScanData :=
  if b then (cancel_scan s).1 else s

/-- Result of the per-company loop of `run_scan`
(`linkedin_scraper.py` lines 181-236): the persisted stores in order,
the final store, the running totals, and whether the loop returned early
at the cancellation checkpoint. -/
structure LoopOut where
  trace : List (Option ScanData)
  store : Option ScanData
  total_posts : Nat
  total_leads : Nat
  stopped : Bool
deriving DecidableEq

/-- The per-company loop of `run_scan` (`linkedin_scraper.py` lines
177-236).  Each company is given as the list of confidence scores of its
milestone posts (the output of `find_company_milestones`).  `n` is the
total company count, `i` the number of companies already processed,
`tp`/`tl` the running post/lead totals.  One schedule boolean is consumed
per atomic worker operation: the cancellation checkpoint read, the
progress write, and the stats write. -/
def runLoop (n : Nat) :
    List (List ℚ) → Nat → Nat → Nat → List Bool → Option ScanData → LoopOut
  | [], _i, tp, tl, _sched, s => ⟨[], s, tp, tl, false⟩
  | scores :: rest, i, tp, tl, sched, s =>
    let s1 := envStep (sched.headD false) s
    if check_if_scan_cancelled (Except.ok s1) then ⟨[s1], s1, tp, tl, true⟩
    else
      let prog := 10 + 85 * (i + 1) / n
      let tp' := tp + scores.length
      let tl' := tl + countLeads scores
      let s2 := envStep ((sched.drop 1).headD false) s1
      let s3 := update_scan_progress prog s2
      let s4 := envStep ((sched.drop 2).headD false) s3
      let s5 := update_scan_stats tp' tl' s4
      let r := runLoop n rest (i + 1) tp' tl' (sched.drop 3) s5
      ⟨s1 :: s2 :: s3 :: s4 :: s5 :: r.trace, r.store, r.total_posts,
        r.total_leads, r.stopped⟩

/-- `run_scan` (`linkedin_scraper.py` lines 145-247) on the happy path
(no exceptions): the initial progress write, the companies-count write,
the pre-loop cancellation checkpoint, the per-company loop, and the final
`complete_scan` when the loop exhausts all companies without observing a
cancellation.  Returns the list of persisted stores in order. -/
def run_scan_trace (companies : List (List ℚ)) (sched : List Bool)
    (s : Option ScanData) : List (Option ScanData) :=
  let s1 := envStep (sched.headD false) s
  let s2 := update_scan_progress 10 s1
  let s3 := envStep ((sched.drop 1).headD false) s2
  let s4 := update_scan_companies companies.length s3
  let s5 := envStep ((sched.drop 2).headD false) s4
  if check_if_scan_cancelled (Except.ok s5) then [s1, s2, s3, s4, s5]
  else
    let r := runLoop companies.length companies 0 0 0 (sched.drop 3) s5
    if r.stopped then [s1, s2, s3, s4, s5] ++ r.trace
    else
      [s1, s2, s3, s4, s5] ++ r.trace ++
        [complete_scan r.total_posts r.total_leads r.store]

/-- The full sequence of persisted states of one job: the pending record
written by the POST /scan handler, the `in_progress` write of
`start_scan_async`, and the worker's writes, with cancel requests allowed
to interleave at every operation boundary according to `sched`. -/
def full_trace (req : ScanRequest) (companies : List (List ℚ))
    (sched : List Bool) : List (Option ScanData) :=
  let s0 := save_scan (scan_config req) none
  let s1 := envStep (sched.headD false) s0
  let s2 := start_scan_async s1
  s0 :: s1 :: s2 :: run_scan_trace companies (sched.drop 1) s2

/-- Result of the per-company loop when the milestone extractor may
throw: the loop body has no per-candidate handler, so the first raised
exception escapes to the `except` clause of `run_scan`. -/
inductive LoopResult
  | finished (s : Option ScanData) (tp tl : Nat)
  | stoppedEarly (s : Option ScanData)
  | excFailed (s : Option ScanData) (msg : String)
deriving DecidableEq

/-- The per-company loop of `run_scan` with a fallible extractor: each
company's `find_company_milestones` call either returns its post scores
or raises (`Except.error msg`).  The raise happens before the iteration's
progress/stats writes (`linkedin_scraper.py` line 193 precedes lines
223-233), so the exception escapes with the store as it was. -/
def run_scan_loop_exc (n : Nat) :
    List (Except String (List ℚ)) → Nat → Nat → Nat → Option ScanData →
      LoopResult
  | [], _i, tp, tl, s => LoopResult.finished s tp tl
  | c :: rest, i, tp, tl, s =>
    if check_if_scan_cancelled (Except.ok s) then LoopResult.stoppedEarly s
    else
      match c with
      | Except.error msg => LoopResult.excFailed s msg
      | Except.ok scores =>
        let prog := 10 + 85 * (i + 1) / n
        let tp' := tp + scores.length
        let tl' := tl + countLeads scores
        let s' := update_scan_stats tp' tl' (update_scan_progress prog s)
        run_scan_loop_exc n rest (i + 1) tp' tl' s'

/-- `run_scan` with a fallible extractor (`linkedin_scraper.py` lines
156-247): the whole loop sits in one `try`; an exception raised while
processing any single company is only caught by the job-level `except`
handler, which logs it and calls `fail_scan`. -/
def run_scan_exc (companies : List (Except String (List ℚ)))
    (s : Option ScanData) : Option ScanData :=
  let s2 := update_scan_companies companies.length (update_scan_progress 10 s)
  if check_if_scan_cancelled (Except.ok s2) then s2
  else
    match run_scan_loop_exc companies.length companies 0 0 0 s2 with
    | LoopResult.finished s3 tp tl => complete_scan tp tl s3
    | LoopResult.stoppedEarly s3 => s3
    | LoopResult.excFailed s3 msg => fail_scan msg s3

/-- A lead object as built in `process_posts` (`leads.py` lines 58-73),
restricted to the fields read by `_filter_lead` and `_score_lead`.
Timestamps are integer day counts; `company_size` is the average of the
estimated range and may be a half-integer. -/
structure Lead where
  company : Option String
  industry : Option String
  milestone_type : Option String
  location : Option String
  seniority_level : String
  company_size : ℚ
  created_at : Option Int
  text : String
deriving DecidableEq

/-- The `company_size` sub-dictionary of search parameters
(`leads.py` lines 120-121: `.get('min', 0)`, `.get('max', 1000000)`). -/
structure SizeRange where
  min : Option ℚ
  max : Option ℚ
deriving DecidableEq

/-- Search parameters as read by `_filter_lead`.  Python truthiness is
kept: an absent or empty location list, a zero `max_age_days`, an empty
seniority list, and an absent `company_size` dict all skip their
filter. -/
structure SearchParams where
  location : List String
  max_age_days : Int
  seniority_levels : List String
  company_size : Option SizeRange
deriving DecidableEq

/-- Python's `needle in hay` on strings: substring containment. -/
def strContains (hay needle : String) : Bool :=
  decide (List.IsInfix needle.toList hay.toList)

/-- Company-size filter stage of `_filter_lead` (`leads.py` lines
119-123): applicable when the parameters carry a company-size range and
the lead's size is truthy (nonzero); passes when the size lies in the
range, with defaults 0 and 1000000 for missing bounds. -/
def filter_lead_size (lead : Lead) (params : SearchParams) : Bool :=
  match params.company_size with
  | none => true
  | some sr =>
    if lead.company_size ≠ 0 then
      decide (sr.min.getD 0 ≤ lead.company_size ∧
        lead.company_size ≤ sr.max.getD 1000000)
    else true

/-- Seniority filter stage of `_filter_lead` (`leads.py` lines 113-116)
followed by the company-size stage. -/
def filter_lead_seniority (lead : Lead) (params : SearchParams) : Bool :=
  if params.seniority_levels ≠ [] ∧ lead.seniority_level ≠ "" then
    if lead.seniority_level ∈ params.seniority_levels then
      filter_lead_size lead params
    else false
  else filter_lead_size lead params

/-- Age filter stage of `_filter_lead` (`leads.py` lines 107-111)
followed by the remaining stages: applicable when `max_age_days` is
truthy and the lead has a creation time; rejects when the age in days
exceeds the bound. -/
def filter_lead_age (lead : Lead) (params : SearchParams) (now : Int) : Bool :=
  if params.max_age_days ≠ 0 then
    match lead.created_at with
    | some t =>
      if now - t > params.max_age_days then false
      else filter_lead_seniority lead params
    | none => filter_lead_seniority lead params
  else filter_lead_seniority lead params

/-- `_filter_lead` (`leads.py` lines 89-129): the location, age,
seniority and company-size filters in source order, returning `False` at
the first failing applicable filter.  `now` is the `datetime.now()` the
age computation reads. -/
def filter_lead (lead : Lead) (params : SearchParams) (now : Int) : Bool :=
  if params.location ≠ [] ∧ strTruthy lead.location then
    if params.location.any
        (fun loc => strContains ((lead.location.getD "").toLower) loc.toLower) then
      filter_lead_age lead params now
    else false
  else filter_lead_age lead params now

/-- Python's built-in `round` on an exact value: round half to even. -/
def pythonRound (q : ℚ) : ℤ :=
  let f := ⌊q⌋
  let r := q - f
  if r < 1 / 2 then f
  else if 1 / 2 < r then f + 1
  else if f % 2 = 0 then f else f + 1

/-- The seniority bonus table of `_score_lead` (`leads.py` lines
158-165): `.get` with default 0 for any unlisted level. -/
def seniority_scores (s : String) : ℚ :=
  if s = "executive" then 20
  else if s = "senior" then 15
  else if s = "mid" then 10
  else if s = "entry" then 5
  else 0

/-- Rendering of an optional string inside an f-string: Python prints
`None` for an absent value. -/
def optRepr : Option String → String
  | none => "None"
  | some s => s

/-- The `lead_info` text assembled by `_score_lead` (`leads.py` lines
143-146), the single query it sends to the relevance client. -/
def lead_info_string (lead : Lead) : String :=
  "Company: " ++ optRepr lead.company ++ "\n" ++
  "Industry: " ++ optRepr lead.industry ++ "\n" ++
  "Milestone: " ++ optRepr lead.milestone_type ++ "\n" ++
  "Text: " ++ lead.text

/-- `_score_lead` (`leads.py` lines 131-175): base 50, recency bonus
`max(0, 15 - age_days / 2)` when the lead has a creation time, seniority
bonus from the table, then the average with the relevance client's
output, rounded and capped above at 100.  The relevance client is the
explicit oracle `nlp`, queried once on `(user_prompt, lead_info)`;
`now` is the `datetime.now()` the age computation reads.  `params` is
accepted but never read, as in the source. -/
def score_lead (lead : Lead) (user_prompt : String) (params : SearchParams)
    (nlp : String → String → ℚ) (now : Int) : ℤ :=
  let relevance_score : ℚ := nlp user_prompt (lead_info_string lead)
  let score : ℚ := 50
  let score : ℚ :=
    match lead.created_at with
    | some t => score + max 0 (15 - ((now - t : ℤ) : ℚ) / 2)
    | none => score
  let score := score + seniority_scores lead.seniority_level
  let score := (score + relevance_score) / 2
  min (pythonRound score) 100

/-- The scoring-and-filtering decision for one candidate: the accept
flag computed by `_filter_lead` and the score computed by `_score_lead`
(the two functions `process_posts` combines at `leads.py` lines 76-79). -/
def score_and_filter (lead : Lead) (user_prompt : String)
    (params : SearchParams) (nlp : String → String → ℚ) (now : Int) :
    Bool × ℤ :=
  (filter_lead lead params now, score_lead lead user_prompt params nlp now)

/-- The milestone classification returned by the NLP client for a post
(`leads.py` lines 30-31, 64). -/
structure MilestoneAnalysis where
  is_milestone : Bool
  milestone_type : Option String
deriving DecidableEq

/-- The outcome of the NLP calls `process_posts` makes for one post: the
milestone classification and the lead object assembled from the extracted
entities (`leads.py` lines 29-73). -/
structure PostEval where
  analysis : MilestoneAnalysis
  lead : Lead
deriving DecidableEq

/-- Acceptance of one post by `process_posts` (`leads.py` lines 27-83):
a post is appended to the returned leads exactly when it is classified as
a milestone (line 31) and passes `_filter_lead` (line 76).  The relevance
score assigned on line 78 does not gate acceptance. -/
def process_post_accept (p : PostEval) (params : SearchParams) (now : Int) :
    Bool :=
  p.analysis.is_milestone && filter_lead p.lead params now

/-- Acceptance as the C3 claim words it (spec-modelled for comparison,
not from the source): milestone type in the requested set, final score
at least the threshold, and all structural filters passing. -/
def claim3_accept (requested : List String) (threshold : ℤ) (p : PostEval)
    (user_prompt : String) (params : SearchParams)
    (nlp : String → String → ℚ) (now : Int) : Bool :=
  (match p.lead.milestone_type with
   | some t => decide (t ∈ requested)
   | none => false)
  && decide (threshold ≤ score_lead p.lead user_prompt params nlp now)
  && filter_lead p.lead params now

/-- The scoring formula as the C5 claim words it (spec-modelled for
comparison, not from the source): base 50, a linear recency bonus capped
at 15 and floored at 0, the seniority table bonus, the average with the
relevance output, clamped to 0-100 and rounded to the nearest integer. -/
def claim5_score (age_days : Int) (seniority : String) (relevance : ℚ) : ℤ :=
  let recency : ℚ := min 15 (max 0 (15 - (age_days : ℚ) / 2))
  let raw : ℚ := 50 + recency + seniority_scores seniority
  let avg : ℚ := (raw + relevance) / 2
  pythonRound (max 0 (min 100 avg))

/-- A record mid-scan that has just been cancelled. -/
def exCancelled : ScanData :=
  { location := "Laval", radius_km := 50, days_back := 30,
    milestone_types := default_milestone_types,
    status := ScanStatus.cancelled, progress := 40,
    stats := ⟨5, 3, 2⟩, error := none }

/-- The same record while still running. -/
def exRunning : ScanData :=
  { exCancelled with status := ScanStatus.in_progress }

/-- C1 counterexample: the stored record does change after its status is
terminal.  (i) `update_scan_progress` on a record whose stored status is
already `cancelled` still rewrites the progress field (40 to 60);
(ii) the operation is a read-modify-write, so a cancel write that lands
between the worker's read and its save is reverted: the saved snapshot
carries status `in_progress` over the stored `cancelled`; (iii)
`complete_scan` overwrites a stored `cancelled` status with `completed`. -/
theorem c1_counterexample :
    update_scan_progress 60 (some exCancelled) =
      some { exCancelled with progress := 60 } ∧
    (60 : Nat) ≠ 40 ∧
    (cancel_scan (some exRunning)).1 =
      some { exRunning with status := ScanStatus.cancelled } ∧
    save_scan (update_scan_progress_body exRunning 60)
        ((cancel_scan (some exRunning)).1) =
      some { exRunning with progress := 60 } ∧
    ({ exRunning with progress := 60 } : ScanData).status =
      ScanStatus.in_progress ∧
    complete_scan 7 3 (some exCancelled) =
      some { exCancelled with
        status := ScanStatus.completed
        progress := 100
        stats := ⟨5, 7, 3⟩ } := by
  refine ⟨rfl, by decide, rfl, rfl, rfl, rfl⟩

/-- C1 (amended): the worker's progress and stats persists are whole
read-modify-write operations that never alter the status field they read
back, so at single-operation granularity they preserve a stored
`cancelled` status; the loss of a cancellation arises only from the
non-atomic read/write split and from `complete_scan`-style unconditional
status writes, as the counterexample shows. -/
theorem c1_amended (p tp tl nc : Nat) (s : Option ScanData) :
    Option.map ScanData.status (update_scan_progress p s) =
      Option.map ScanData.status s ∧
    Option.map ScanData.status (update_scan_stats tp tl s) =
      Option.map ScanData.status s ∧
    Option.map ScanData.status (update_scan_companies nc s) =
      Option.map ScanData.status s := by
  cases s <;>
    simp [update_scan_progress, update_scan_stats, update_scan_companies,
      update_scan_progress_body, save_scan]

/-- A freshly started record, as the worker sees it. -/
def exStarted : ScanData :=
  { location := "Brossard", radius_km := 25, days_back := 14,
    milestone_types := ["funding"],
    status := ScanStatus.in_progress, progress := 0,
    stats := ⟨0, 0, 0⟩, error := none }

/-- C2 counterexample: one company whose extractor call raises takes the
whole job to `failed` immediately — the first per-candidate exception is
not skipped, and no consecutive-failure threshold exists. -/
theorem c2_counterexample :
    run_scan_exc [Except.error "timeout"] (some exStarted) =
      some { exStarted with
        status := ScanStatus.failed
        progress := 10
        stats := ⟨1, 0, 0⟩
        error := some "timeout" } := by
  rfl

/-- C2 (amended): an exception raised while processing any candidate in
`run_scan` escapes the per-company loop (which has no per-candidate
handler) to the job-level `except` clause, which logs it and marks the
job `failed` with that message at once: for every job the first
candidate exception already fails the job, and no consecutive-failure
threshold exists. -/
theorem c2_amended (msg : String) (rest : List (Except String (List ℚ)))
    (d : ScanData) (h : d.status = ScanStatus.in_progress) :
    ∃ e : ScanData,
      run_scan_exc (Except.error msg :: rest) (some d) = some e ∧
      e.status = ScanStatus.failed ∧ e.error = some msg := by
  refine ⟨{ d with
      status := ScanStatus.failed
      progress := 10
      stats := { d.stats with companies := rest.length + 1 }
      error := some msg }, ?_, rfl, rfl⟩
  simp [run_scan_exc, run_scan_loop_exc, update_scan_progress,
    update_scan_companies, update_scan_progress_body, save_scan,
    check_if_scan_cancelled, fail_scan, h]

/-- C2 witness: the amended statement at a concrete record. -/
theorem c2_amended_witness :
    ∃ e : ScanData,
      run_scan_exc (Except.error "boom" :: []) (some exStarted) = some e ∧
      e.status = ScanStatus.failed ∧ e.error = some "boom" :=
  c2_amended "boom" [] exStarted rfl

/-- The running record after a first successful cancel. -/
def exRunningCancelled : ScanData :=
  { exRunning with status := ScanStatus.cancelled }

/-- A completed record. -/
def exCompleted : ScanData :=
  { exRunning with status := ScanStatus.completed, progress := 100 }

/-- C6 counterexample: cancel is not an idempotent no-op on terminal
jobs.  A first cancel of a running job succeeds (200), but repeating it
— or cancelling a completed job — returns the HTTP 400 error "Scan
cannot be cancelled in its current state" instead of succeeding as a
no-op. -/
theorem c6_counterexample :
    cancel_scan (some exRunning) = (some exRunningCancelled, 200) ∧
    cancel_scan (some exRunningCancelled) = (some exRunningCancelled, 400) ∧
    cancel_scan (some exCompleted) = (some exCompleted, 400) := by
  refine ⟨rfl, rfl, rfl⟩

/-- C6 (amended): `cancel_scan` returns 404 for an unknown job id,
writes `cancelled` and returns 200 when the stored status is `pending`
or `in_progress`, and for a job already in a terminal state leaves the
record unchanged but reports the HTTP 400 error — it is not treated as a
successful no-op. -/
theorem c6_amended (s : Option ScanData) :
    (s = none → cancel_scan s = (none, 404)) ∧
    (∀ d : ScanData, s = some d →
      (d.status = ScanStatus.pending ∨ d.status = ScanStatus.in_progress) →
      cancel_scan s = (some { d with status := ScanStatus.cancelled }, 200)) ∧
    (∀ d : ScanData, s = some d →
      d.status ≠ ScanStatus.pending → d.status ≠ ScanStatus.in_progress →
      cancel_scan s = (some d, 400)) := by
  refine ⟨?_, ?_, ?_⟩
  · rintro rfl; rfl
  · rintro d rfl h
    rcases h with h | h <;> simp [cancel_scan, h, save_scan]
  · rintro d rfl h1 h2
    simp [cancel_scan, h1, h2]

/-- C6 witness: the amended statement applied to a running record. -/
theorem c6_amended_witness :
    cancel_scan (some exRunning) =
      (some { exRunning with status := ScanStatus.cancelled }, 200) :=
  (c6_amended (some exRunning)).2.1 exRunning rfl (Or.inr rfl)

/-- A request whose parameters are malformed in every way the C7 claim
lists except the location: radius 0, negative lookback, empty milestone
type set. -/
def exBadRequest : ScanRequest :=
  { location := some "Montreal"
    radius_km := some 0
    days_back := some (-5)
    milestone_types := some [] }

/-- C7 counterexample: `start_scan` accepts the malformed parameters —
radius 0, lookback -5, and an empty milestone-type set produce no
validation error; a pending record carrying exactly those values is
created and persisted, and the handler answers 200. -/
theorem c7_counterexample :
    start_scan exBadRequest none = (some (scan_config exBadRequest), 200) ∧
    (scan_config exBadRequest).status = ScanStatus.pending ∧
    (scan_config exBadRequest).radius_km = 0 ∧
    (scan_config exBadRequest).days_back = -5 ∧
    (scan_config exBadRequest).milestone_types = [] := by
  refine ⟨rfl, rfl, rfl, rfl, rfl⟩

/-- C7 (amended): the only validation `start_scan` performs is on the
location — a missing or empty location is rejected with the HTTP 400
error before any record is written, and any request with a truthy
location (radius, lookback and milestone types unchecked) creates and
persists a Job Record with status `pending` and returns 200; the scan
itself runs on a separate background thread, so the handler does not
block on it. -/
theorem c7_amended (req : ScanRequest) (s : Option ScanData) :
    (strTruthy req.location = false → start_scan req s = (s, 400)) ∧
    (strTruthy req.location = true →
      start_scan req s = (some (scan_config req), 200) ∧
      (scan_config req).status = ScanStatus.pending) := by
  constructor
  · intro h; simp [start_scan, h]
  · intro h; exact ⟨by simp [start_scan, h, save_scan], rfl⟩

/-- C7 witness: the amended statement at a well-formed request. -/
theorem c7_amended_witness :
    start_scan { location := some "Quebec", radius_km := none,
                 days_back := none, milestone_types := none } none =
      (some (scan_config { location := some "Quebec", radius_km := none,
                           days_back := none, milestone_types := none }), 200) :=
  ((c7_amended { location := some "Quebec", radius_km := none,
                 days_back := none, milestone_types := none } none).2 rfl).1

/-- C10: at the cancellation checkpoint, a successful read that finds no
record makes `check_if_scan_cancelled` return `True` — and the loop then
stops with no further candidate processed, as the `runLoop` run from an
absent record shows (it stops immediately, performs no write and counts
no post) — whereas a read that raises an exception makes it return
`False` (the worker carries on), as it also does on a live record. -/
theorem c10_check_semantics :
    check_if_scan_cancelled (Except.ok none) = true ∧
    check_if_scan_cancelled (Except.error ()) = false ∧
    check_if_scan_cancelled (Except.ok (some exRunning)) = false ∧
    runLoop 2 [[(1 : ℚ)], [1]] 0 0 0 [] none =
      ⟨[none], none, 0, 0, true⟩ := by
  refine ⟨rfl, rfl, by decide, rfl⟩

/-- Helper: `pythonRound` never exceeds an integer bound that dominates
its argument. -/
lemma pythonRound_le (q : ℚ) (z : ℤ) (h : q ≤ z) : pythonRound q ≤ z := by
  have hfl : ⌊q⌋ ≤ z := by
    have := Int.floor_le_floor h
    simpa using this
  have hlow : (⌊q⌋ : ℚ) ≤ q := Int.floor_le q
  simp only [pythonRound]
  split_ifs with h1 h2 h3
  · exact hfl
  · by_contra hcon
    push_neg at hcon
    have hz : z ≤ ⌊q⌋ := by omega
    have hz' : (z : ℚ) ≤ (⌊q⌋ : ℚ) := by exact_mod_cast hz
    have : q - ⌊q⌋ ≤ 0 := by linarith
    linarith
  · exact hfl
  · by_contra hcon
    push_neg at hcon
    have hz : z ≤ ⌊q⌋ := by omega
    have hz' : (z : ℚ) ≤ (⌊q⌋ : ℚ) := by exact_mod_cast hz
    have hr : q - ⌊q⌋ = 1 / 2 := le_antisymm (not_lt.mp h2) (not_lt.mp h1)
    have : q - ⌊q⌋ ≤ 0 := by linarith
    linarith

/-- Helper: `pythonRound` of a nonnegative value is nonnegative. -/
lemma pythonRound_nonneg (q : ℚ) (h : 0 ≤ q) : 0 ≤ pythonRound q := by
  have hfl : (0 : ℤ) ≤ ⌊q⌋ := by
    rw [Int.le_floor]
    exact_mod_cast h
  simp only [pythonRound]
  split_ifs <;> omega

/-- Helper: the seniority bonus table is bounded by 0 and 20. -/
lemma seniority_scores_bounds (s : String) :
    0 ≤ seniority_scores s ∧ seniority_scores s ≤ 20 := by
  unfold seniority_scores
  split_ifs <;> norm_num

/-- C4: `score_and_filter` is deterministic — its only inputs are the
candidate lead, the user prompt, the search parameters, the relevance
oracle and the explicit reference time `now` standing for the clock
reading, and it consults the oracle on exactly one query, so two
invocations whose oracles agree on that query (in particular two
invocations with identical inputs) return the identical decision pair
(accept flag, score). -/
theorem c4_score_and_filter_deterministic (lead : Lead)
    (user_prompt : String) (params : SearchParams)
    (nlp1 nlp2 : String → String → ℚ) (now : Int)
    (h : nlp1 user_prompt (lead_info_string lead) =
         nlp2 user_prompt (lead_info_string lead)) :
    score_and_filter lead user_prompt params nlp1 now =
      score_and_filter lead user_prompt params nlp2 now := by
  unfold score_and_filter score_lead
  rw [h]

/-- A concrete senior-level lead used by the witnesses. -/
def exLead : Lead :=
  { company := some "Acme"
    industry := some "Tech"
    milestone_type := some "funding"
    location := some "Laval"
    seniority_level := "senior"
    company_size := 30
    created_at := some 0
    text := "Acme raised a round" }

/-- C4 witness: two oracles that differ away from the consulted query
but agree on it yield the same decision for a concrete lead. -/
theorem c4_witness :
    score_and_filter exLead "growth companies" ⟨[], 0, [], none⟩
        (fun _ _ => 60) 4 =
      score_and_filter exLead "growth companies" ⟨[], 0, [], none⟩
        (fun p _ => if p = "growth companies" then 60 else 0) 4 :=
  c4_score_and_filter_deterministic exLead "growth companies" ⟨[], 0, [], none⟩
    (fun _ _ => 60) (fun p _ => if p = "growth companies" then 60 else 0) 4
    (by simp)

/-- C5: for a lead with a creation time not in the future and a
relevance output within the 0-100 scale, `_score_lead` computes exactly
the claimed formula: base 50, plus the linear recency bonus capped at 15
and floored at 0, plus the seniority table bonus, averaged with the
relevance output, clamped to 0-100 and rounded to the nearest integer
(ties to even, Python's `round`). -/
theorem c5_score_formula (lead : Lead) (user_prompt : String)
    (params : SearchParams) (nlp : String → String → ℚ) (now t : Int)
    (hc : lead.created_at = some t) (ht : t ≤ now)
    (h0 : 0 ≤ nlp user_prompt (lead_info_string lead))
    (h1 : nlp user_prompt (lead_info_string lead) ≤ 100) :
    score_lead lead user_prompt params nlp now =
      claim5_score (now - t) lead.seniority_level
        (nlp user_prompt (lead_info_string lead)) := by
  have hsen := seniority_scores_bounds lead.seniority_level
  set rel : ℚ := nlp user_prompt (lead_info_string lead) with hrel
  set sen : ℚ := seniority_scores lead.seniority_level with hsendef
  set a : ℚ := 15 - ((now - t : ℤ) : ℚ) / 2 with ha
  have hage : (0 : ℚ) ≤ ((now - t : ℤ) : ℚ) := by
    have : (0 : ℤ) ≤ now - t := by omega
    exact_mod_cast this
  have ha15 : a ≤ 15 := by rw [ha]; linarith
  have hmax15 : max 0 a ≤ 15 := max_le (by norm_num) ha15
  have hmax0 : (0 : ℚ) ≤ max 0 a := le_max_left 0 a
  have hrec : min 15 (max 0 a) = max 0 a := min_eq_right hmax15
  set q : ℚ := (50 + max 0 a + sen + rel) / 2 with hq
  have hq0 : (0 : ℚ) ≤ q := by rw [hq]; linarith [hsen.1, h0]
  have hq100 : q ≤ 100 := by rw [hq]; linarith [hsen.2, h1]
  have hround : pythonRound q ≤ 100 := pythonRound_le q 100 (by exact_mod_cast hq100)
  unfold score_lead claim5_score
  rw [hc]
  simp only [← hrel, ← hsendef, ← ha, hrec]
  rw [min_eq_right hq100, max_eq_right hq0]
  rw [min_eq_left hround]

/-- C5 witness: the formula at a concrete lead — four days old, senior
contact, relevance 80: score (50 + 13 + 15 + 80 averaged) = 79. -/
theorem c5_witness :
    score_lead exLead "growth companies" ⟨[], 0, [], none⟩
        (fun _ _ => 80) 4 =
      claim5_score 4 "senior" 80 :=
  c5_score_formula exLead "growth companies" ⟨[], 0, [], none⟩
    (fun _ _ => 80) 4 0 rfl (by decide) (by decide) (by decide)

/-- The location filter of `_filter_lead` in isolation: pass unless the
filter is applicable and no requested location occurs (case-folded) in
the lead's location. -/
def location_filter (lead : Lead) (params : SearchParams) : Bool :=
  if params.location ≠ [] ∧ strTruthy lead.location then
    params.location.any
      (fun loc => strContains ((lead.location.getD "").toLower) loc.toLower)
  else true

/-- The age filter of `_filter_lead` in isolation: pass unless the
filter is applicable and the age exceeds `max_age_days`. -/
def age_filter (lead : Lead) (params : SearchParams) (now : Int) : Bool :=
  if params.max_age_days ≠ 0 then
    match lead.created_at with
    | some t => decide (now - t ≤ params.max_age_days)
    | none => true
  else true

/-- The seniority filter of `_filter_lead` in isolation: pass unless the
filter is applicable and the lead's level is not among those requested. -/
def seniority_filter (lead : Lead) (params : SearchParams) : Bool :=
  if params.seniority_levels ≠ [] ∧ lead.seniority_level ≠ "" then
    decide (lead.seniority_level ∈ params.seniority_levels)
  else true

/-- Helper: the seniority stage is the seniority filter sequenced with
the size stage. -/
lemma filter_lead_seniority_eq (lead : Lead) (params : SearchParams) :
    filter_lead_seniority lead params =
      (seniority_filter lead params && filter_lead_size lead params) := by
  unfold filter_lead_seniority seniority_filter
  split_ifs with h hm hm
  · simp [hm]
  · simp [hm]
  · simp

/-- Helper: the age stage is the age filter sequenced with the later
stages. -/
lemma filter_lead_age_eq (lead : Lead) (params : SearchParams) (now : Int) :
    filter_lead_age lead params now =
      (age_filter lead params now && filter_lead_seniority lead params) := by
  unfold filter_lead_age age_filter
  by_cases h : params.max_age_days ≠ 0
  · rw [if_pos h, if_pos h]
    cases hca : lead.created_at with
    | none => simp
    | some t =>
      dsimp only
      by_cases hage : now - t > params.max_age_days
      · rw [if_pos hage, decide_eq_false (not_le.mpr hage)]
        simp
      · rw [if_neg hage, decide_eq_true (not_lt.mp hage)]
        simp
  · rw [if_neg h, if_neg h]
    simp

/-- Helper: `_filter_lead` is the location filter sequenced with the
later stages. -/
lemma filter_lead_eq (lead : Lead) (params : SearchParams) (now : Int) :
    filter_lead lead params now =
      (location_filter lead params && filter_lead_age lead params now) := by
  unfold filter_lead location_filter
  split_ifs with h hany hany
  · simp [hany]
  · simp [hany]
  · simp

/-- A minimal milestone post: classified as a milestone, with no fields
that any structural filter or bonus applies to. -/
def exMinLead : Lead :=
  { company := none
    industry := none
    milestone_type := some "funding"
    location := none
    seniority_level := "unknown"
    company_size := 0
    created_at := none
    text := "" }

/-- Unconstrained search parameters: every structural filter skipped. -/
def exParams : SearchParams := ⟨[], 0, [], none⟩

/-- The post evaluation for the minimal milestone post. -/
def exPost : PostEval := ⟨⟨true, some "funding"⟩, exMinLead⟩

/-- C3 counterexample: `process_posts` accepts a candidate whose final
score is 25, far below the only acceptance threshold in the repository
(0.75, i.e. 75 on the 0-100 scale): acceptance is decided by the
milestone classification and the structural filters alone, so the
claimed "accepted iff type requested AND score at least the threshold
AND filters pass" is false — the claim-side predicate rejects this
accepted candidate. -/
theorem c3_counterexample :
    process_post_accept exPost exParams 0 = true ∧
    score_lead exMinLead "growth companies" exParams (fun _ _ => 0) 0 = 25 ∧
    claim3_accept ["funding"] 75 exPost "growth companies" exParams
      (fun _ _ => 0) 0 = false := by
  have hscore : score_lead exMinLead "growth companies" exParams
      (fun _ _ => 0) 0 = 25 := by
    have hsen : seniority_scores "unknown" = 0 := by decide
    simp only [score_lead, exMinLead, hsen]
    norm_num [pythonRound]
  refine ⟨by decide, hscore, ?_⟩
  simp only [claim3_accept, exPost, hscore]
  decide

/-- C3 (amended): acceptance by `process_posts` is exactly the milestone
classification conjoined with the structural filters, evaluated in the
fixed source order — location, then age, then seniority, then company
size — with short-circuit on the first failure; neither the final score
nor the job's requested milestone-type set takes part in the decision
(in `run_scan`, by contrast, a post becomes a lead exactly when its
extractor confidence score reaches 0.75, with no structural filter). -/
theorem c3_amended (p : PostEval) (params : SearchParams) (now : Int) :
    process_post_accept p params now =
      (p.analysis.is_milestone &&
        (location_filter p.lead params &&
          (age_filter p.lead params now &&
            (seniority_filter p.lead params &&
              filter_lead_size p.lead params)))) := by
  unfold process_post_accept
  rw [filter_lead_eq, filter_lead_age_eq, filter_lead_seniority_eq]

/-- Progress of a stored state (0 when the record is absent). -/
def progOf : Option ScanData → Nat
  | none => 0
  | some d => d.progress

/-- Stats of a stored state (zeros when the record is absent). -/
def statsOf : Option ScanData → ScanStats
  | none => ⟨0, 0, 0⟩
  | some d => d.stats

/-- One monotonicity step between consecutive persisted states: progress
and the post/lead counters never decrease. -/
def stepLE (a b : Option ScanData) : Prop :=
  progOf a ≤ progOf b ∧ (statsOf a).posts ≤ (statsOf b).posts ∧
    (statsOf a).leads ≤ (statsOf b).leads

/-- Helper: an environment step on a live record only ever rewrites the
status field, to the old status (no cancel, or a rejected cancel) or to
`cancelled`. -/
lemma envStep_char (b : Bool) (d : ScanData) :
    ∃ st, envStep b (some d) = some { d with status := st } ∧
      (st = d.status ∨ st = ScanStatus.cancelled) := by
  cases b with
  | false => exact ⟨d.status, rfl, Or.inl rfl⟩
  | true =>
    unfold envStep cancel_scan
    by_cases h : d.status ≠ ScanStatus.pending ∧ d.status ≠ ScanStatus.in_progress
    · exact ⟨d.status, by simp [h], Or.inl rfl⟩
    · exact ⟨ScanStatus.cancelled, by simp [h, save_scan], Or.inr rfl⟩

/-- Helper: reduction of `update_scan_progress` on a live record. -/
lemma update_scan_progress_some (p : Nat) (d : ScanData) :
    update_scan_progress p (some d) = some { d with progress := p } := rfl

/-- Helper: reduction of `update_scan_stats` on a live record. -/
lemma update_scan_stats_some (tp tl : Nat) (d : ScanData) :
    update_scan_stats tp tl (some d) =
      some { d with stats := { d.stats with posts := tp, leads := tl } } := rfl

/-- Helper: reduction of `update_scan_companies` on a live record. -/
lemma update_scan_companies_some (nc : Nat) (d : ScanData) :
    update_scan_companies nc (some d) =
      some { d with stats := { d.stats with companies := nc } } := rfl

/-- Helper: reduction of `complete_scan` on a live record. -/
lemma complete_scan_some (tp tl : Nat) (d : ScanData) :
    complete_scan tp tl (some d) =
      some { d with
        status := ScanStatus.completed
        progress := 100
        stats := { d.stats with posts := tp, leads := tl } } := rfl

/-- Helper: the progress value written for the i-th company stays in the
0-95 band whenever at most `n` companies are processed. -/
lemma prog_le_95 (i n : Nat) (h : i ≤ n) : 10 + 85 * i / n ≤ 95 := by
  rcases Nat.eq_zero_or_pos n with h0 | h0
  · subst h0
    simp
  · have hdiv : 85 * i / n ≤ 85 := by
      calc 85 * i / n ≤ 85 * n / n :=
            Nat.div_le_div_right (Nat.mul_le_mul_left 85 h)
        _ = 85 := Nat.mul_div_cancel 85 h0
    omega

/-- Helper: the per-company progress values are monotone in the number
of processed companies. -/
lemma prog_mono (i j n : Nat) (h : i ≤ j) :
    10 + 85 * i / n ≤ 10 + 85 * j / n := by
  have h2 : 85 * i / n ≤ 85 * j / n :=
    Nat.div_le_div_right (Nat.mul_le_mul_left 85 h)
  omega

/-- Helper: the number of leads created from a company's posts never
exceeds the number of posts examined. -/
lemma countLeads_le (scores : List ℚ) : countLeads scores ≤ scores.length := by
  unfold countLeads
  exact List.length_filter_le _ _

/-- Invariant of the per-company loop: along every interleaving of
worker writes and cancel requests, consecutive persisted states are
monotone (`stepLE`), every state written by the loop is a live record
that is not yet `completed`, keeps progress in the 0-95 band and keeps
leads at most posts; the final store is live, carries the returned
totals in its stats, and the totals only grow and stay ordered. -/
lemma runLoop_spec (rest : List (List ℚ)) :
    ∀ (n i tp tl : Nat) (sched : List Bool) (d : ScanData),
      i + rest.length = n →
      d.status ≠ ScanStatus.completed →
      d.progress = 10 + 85 * i / n →
      d.stats.posts = tp → d.stats.leads = tl → tl ≤ tp →
      List.Chain' stepLE
        (some d :: (runLoop n rest i tp tl sched (some d)).trace) ∧
      (∀ x ∈ (runLoop n rest i tp tl sched (some d)).trace,
        ∃ e : ScanData, x = some e ∧ e.status ≠ ScanStatus.completed ∧
          e.progress ≤ 95 ∧ e.stats.leads ≤ e.stats.posts) ∧
      (some d :: (runLoop n rest i tp tl sched (some d)).trace).getLast? =
        some (runLoop n rest i tp tl sched (some d)).store ∧
      (∃ dF : ScanData,
        (runLoop n rest i tp tl sched (some d)).store = some dF ∧
        dF.status ≠ ScanStatus.completed ∧ dF.progress ≤ 95 ∧
        dF.stats.posts = (runLoop n rest i tp tl sched (some d)).total_posts ∧
        dF.stats.leads = (runLoop n rest i tp tl sched (some d)).total_leads ∧
        tp ≤ (runLoop n rest i tp tl sched (some d)).total_posts ∧
        tl ≤ (runLoop n rest i tp tl sched (some d)).total_leads ∧
        (runLoop n rest i tp tl sched (some d)).total_leads ≤
          (runLoop n rest i tp tl sched (some d)).total_posts) := by
  induction rest with
  | nil =>
    intro n i tp tl sched d hn hst hpr hpo hle htl
    have hi : i = n := by simpa using hn
    have hp95 : d.progress ≤ 95 := by
      rw [hpr]
      exact prog_le_95 i n (le_of_eq hi)
    refine ⟨by simp [runLoop], by simp [runLoop], by simp [runLoop],
      d, by simp [runLoop], hst, hp95, by simp [runLoop, hpo],
      by simp [runLoop, hle], by simp [runLoop], by simp [runLoop],
      by simp only [runLoop]; omega⟩
  | cons scores rest ih =>
    intro n i tp tl sched d hn hst hpr hpo hle htl
    have hi1n : i + 1 ≤ n := by simp at hn; omega
    have hin : i ≤ n := by omega
    obtain ⟨st1, he1, hst1⟩ := envStep_char (sched.headD false) d
    have h1ne : st1 ≠ ScanStatus.completed := by
      rcases hst1 with h | h
      · rw [h]; exact hst
      · rw [h]; exact fun hcon => ScanStatus.noConfusion hcon
    by_cases hcan : st1 = ScanStatus.cancelled
    · -- checkpoint observes a cancelled status: the loop stops at once
      have hrun : runLoop n (scores :: rest) i tp tl sched (some d) =
          ⟨[some { d with status := st1 }], some { d with status := st1 },
            tp, tl, true⟩ := by
        simp only [runLoop, he1, check_if_scan_cancelled]
        simp [hcan]
      rw [hrun]
      have hp95 : d.progress ≤ 95 := by
        rw [hpr]; exact prog_le_95 i n hin
      refine ⟨?_, ?_, by simp, { d with status := st1 }, rfl, h1ne, hp95,
        by simpa using hpo, by simpa using hle, le_refl tp, le_refl tl, htl⟩
      · constructor
        · exact ⟨le_refl _, le_refl _, le_refl _⟩
        · simp [List.chain'_singleton]
      · intro x hx
        simp only [List.mem_singleton] at hx
        subst hx
        exact ⟨_, rfl, h1ne, hp95, by simpa [hle, hpo] using htl⟩
    · -- checkpoint passes: one company is processed, then the loop recurses
      obtain ⟨st2, he2, hst2⟩ :=
        envStep_char ((sched.drop 1).headD false) { d with status := st1 }
      obtain ⟨st3, he3, hst3⟩ :=
        envStep_char ((sched.drop 2).headD false)
          { { { d with status := st1 } with status := st2 } with
            progress := 10 + 85 * (i + 1) / n }
      have h2ne : st2 ≠ ScanStatus.completed := by
        rcases hst2 with h | h
        · rw [h]; exact h1ne
        · rw [h]; exact fun hcon => ScanStatus.noConfusion hcon
      have h3ne : st3 ≠ ScanStatus.completed := by
        rcases hst3 with h | h
        · rw [h]; exact h2ne
        · rw [h]; exact fun hcon => ScanStatus.noConfusion hcon
      have htl' : tl + countLeads scores ≤ tp + scores.length := by
        have := countLeads_le scores; omega
      set D5 : ScanData := { d with
        status := st3
        progress := 10 + 85 * (i + 1) / n
        stats := { d.stats with
          posts := tp + scores.length
          leads := tl + countLeads scores } } with hD5
      set r : LoopOut := runLoop n rest (i + 1) (tp + scores.length)
        (tl + countLeads scores) (sched.drop 3) (some D5) with hrdef
      have hrun : runLoop n (scores :: rest) i tp tl sched (some d) =
          ⟨some { d with status := st1 } ::
            some { d with status := st2 } ::
            some { d with status := st2, progress := 10 + 85 * (i + 1) / n } ::
            some { d with status := st3, progress := 10 + 85 * (i + 1) / n } ::
            some D5 :: r.trace, r.store, r.total_posts, r.total_leads,
            r.stopped⟩ := by
        rw [hrdef, hD5]
        simp only [runLoop, he1, check_if_scan_cancelled]
        rw [if_neg (by simp [hcan])]
        rw [he2, update_scan_progress_some, he3, update_scan_stats_some]
      have hmain := ih n (i + 1) (tp + scores.length) (tl + countLeads scores)
        (sched.drop 3) D5
        (by simp only [List.length_cons] at hn; omega)
        h3ne rfl rfl rfl htl'
      rw [← hrdef] at hmain
      obtain ⟨ihChain, ihMem, ihLast, dF, ihStore, ihdFne, ihdFp, ihdFpos,
        ihdFlea, ihtp, ihtl, ihlep⟩ := hmain
      have hp95d : d.progress ≤ 95 := by
        rw [hpr]; exact prog_le_95 i n hin
      have hp95p : 10 + 85 * (i + 1) / n ≤ 95 := prog_le_95 (i + 1) n hi1n
      have hlp : d.stats.leads ≤ d.stats.posts := by omega
      rw [hrun]
      refine ⟨?_, ?_, ?_, ?_⟩
      · refine List.chain'_cons.mpr ⟨⟨le_refl _, le_refl _, le_refl _⟩,
          List.chain'_cons.mpr ⟨⟨le_refl _, le_refl _, le_refl _⟩,
          List.chain'_cons.mpr ⟨⟨?_, le_refl _, le_refl _⟩,
          List.chain'_cons.mpr ⟨⟨le_refl _, le_refl _, le_refl _⟩,
          List.chain'_cons.mpr ⟨⟨le_refl _, ?_, ?_⟩, ihChain⟩⟩⟩⟩⟩
        · show d.progress ≤ 10 + 85 * (i + 1) / n
          rw [hpr]; exact prog_mono i (i + 1) n (Nat.le_succ i)
        · show d.stats.posts ≤ tp + scores.length
          omega
        · show d.stats.leads ≤ tl + countLeads scores
          omega
      · intro x hx
        simp only [List.mem_cons] at hx
        rcases hx with rfl | rfl | rfl | rfl | rfl | hx
        · exact ⟨_, rfl, h1ne, hp95d, hlp⟩
        · exact ⟨_, rfl, h2ne, hp95d, hlp⟩
        · exact ⟨_, rfl, h2ne, hp95p, hlp⟩
        · exact ⟨_, rfl, h3ne, hp95p, hlp⟩
        · exact ⟨_, rfl, h3ne, hp95p, htl'⟩
        · exact ihMem x hx
      · rw [List.getLast?_cons_cons, List.getLast?_cons_cons,
          List.getLast?_cons_cons, List.getLast?_cons_cons,
          List.getLast?_cons_cons]
        exact ihLast
      · exact ⟨dF, ihStore, ihdFne, ihdFp, ihdFpos, ihdFlea,
          le_trans (Nat.le_add_right tp _) ihtp,
          le_trans (Nat.le_add_right tl _) ihtl, ihlep⟩

/-- Helper: reduction of `start_scan_async` on a live record. -/
lemma start_scan_async_some (d : ScanData) :
    start_scan_async (some d) =
      some { d with status := ScanStatus.in_progress } := rfl

/-- Invariant of one `run_scan` execution from a freshly started record,
under any interleaving of cancel requests: consecutive persisted states
are monotone, and every persisted state is a live record in which
progress is 100 exactly when the status is `completed`, and leads never
exceed posts. -/
lemma run_scan_trace_spec (companies : List (List ℚ)) (sched : List Bool)
    (d : ScanData) (hst : d.status ≠ ScanStatus.completed)
    (hpr : d.progress = 0) (hstats : d.stats = ⟨0, 0, 0⟩) :
    List.Chain' stepLE (some d :: run_scan_trace companies sched (some d)) ∧
    ∀ x ∈ run_scan_trace companies sched (some d), ∃ e : ScanData,
      x = some e ∧ (e.progress = 100 ↔ e.status = ScanStatus.completed) ∧
      e.stats.leads ≤ e.stats.posts := by
  obtain ⟨st1, he1, hst1⟩ := envStep_char (sched.headD false) d
  obtain ⟨st2, he2, hst2⟩ := envStep_char ((sched.drop 1).headD false)
    { { d with status := st1 } with progress := 10 }
  obtain ⟨st3, he3, hst3⟩ := envStep_char ((sched.drop 2).headD false)
    { { { { d with status := st1 } with progress := 10 } with status := st2 } with
      stats := { ({ { { d with status := st1 } with progress := 10 } with
        status := st2 }).stats with companies := companies.length } }
  have h1ne : st1 ≠ ScanStatus.completed := by
    rcases hst1 with h | h
    · rw [h]; exact hst
    · rw [h]; exact fun hcon => ScanStatus.noConfusion hcon
  have h2ne : st2 ≠ ScanStatus.completed := by
    rcases hst2 with h | h
    · rw [h]; exact h1ne
    · rw [h]; exact fun hcon => ScanStatus.noConfusion hcon
  have h3ne : st3 ≠ ScanStatus.completed := by
    rcases hst3 with h | h
    · rw [h]; exact h2ne
    · rw [h]; exact fun hcon => ScanStatus.noConfusion hcon
  have hlp0 : d.stats.leads ≤ d.stats.posts := by rw [hstats]
  have hiff10 : ∀ st : ScanStatus, st ≠ ScanStatus.completed →
      ∀ p : Nat, p ≤ 95 → ((p = 100) ↔ (st = ScanStatus.completed)) := by
    intro st hne p hp
    constructor
    · intro h; omega
    · intro h; exact absurd h hne
  set B5 : ScanData :=
    { { { { { d with status := st1 } with progress := 10 } with
        status := st2 } with
        stats := { ({ { { d with status := st1 } with progress := 10 } with
          status := st2 }).stats with companies := companies.length } } with
      status := st3 } with hB5
  set r : LoopOut := runLoop companies.length companies 0 0 0
    (sched.drop 3) (some B5) with hrdef
  have hp0 : d.progress ≤ 95 := by omega
  by_cases hcan : st3 = ScanStatus.cancelled
  · -- the pre-loop checkpoint observes a cancelled status
    have hrun : run_scan_trace companies sched (some d) =
        [some { d with status := st1 },
         some { d with status := st1, progress := 10 },
         some { d with status := st2, progress := 10 },
         some { d with
           status := st2
           progress := 10
           stats := { d.stats with companies := companies.length } },
         some B5] := by
      rw [hB5]
      simp only [run_scan_trace, he1, update_scan_progress_some]
      rw [he2, update_scan_companies_some, he3]
      rw [if_pos (by simp [check_if_scan_cancelled, hcan])]
    rw [hrun]
    constructor
    · refine List.chain'_cons.mpr ⟨⟨le_refl _, le_refl _, le_refl _⟩,
        List.chain'_cons.mpr ⟨⟨?_, le_refl _, le_refl _⟩,
        List.chain'_cons.mpr ⟨⟨le_refl _, le_refl _, le_refl _⟩,
        List.chain'_cons.mpr ⟨⟨le_refl _, le_refl _, le_refl _⟩,
        List.chain'_cons.mpr ⟨⟨le_refl _, le_refl _, le_refl _⟩,
          List.chain'_singleton _⟩⟩⟩⟩⟩
      show d.progress ≤ 10
      omega
    · intro x hx
      simp only [List.mem_cons, List.not_mem_nil, or_false] at hx
      rcases hx with rfl | rfl | rfl | rfl | rfl
      · exact ⟨_, rfl, hiff10 st1 h1ne d.progress (by omega), hlp0⟩
      · exact ⟨_, rfl, hiff10 st1 h1ne 10 (by omega), hlp0⟩
      · exact ⟨_, rfl, hiff10 st2 h2ne 10 (by omega), hlp0⟩
      · exact ⟨_, rfl, hiff10 st2 h2ne 10 (by omega), hlp0⟩
      · exact ⟨_, rfl, hiff10 st3 h3ne 10 (by omega), hlp0⟩
  · -- the loop runs
    have hmain := runLoop_spec companies companies.length 0 0 0
      (sched.drop 3) B5 (by omega)
      (by rw [hB5]; exact h3ne)
      (by rw [hB5]; show (10 : Nat) = 10 + 85 * 0 / companies.length; simp)
      (by rw [hB5]; show d.stats.posts = 0; rw [hstats])
      (by rw [hB5]; show d.stats.leads = 0; rw [hstats])
      (le_refl 0)
    rw [← hrdef] at hmain
    obtain ⟨ihChain, ihMem, ihLast, dF, ihStore, ihdFne, ihdFp, ihdFpos,
      ihdFlea, _ihtp, _ihtl, ihlep⟩ := hmain
    have hrun : run_scan_trace companies sched (some d) =
        if r.stopped then
          some { d with status := st1 } ::
          some { d with status := st1, progress := 10 } ::
          some { d with status := st2, progress := 10 } ::
          some { d with
            status := st2
            progress := 10
            stats := { d.stats with companies := companies.length } } ::
          some B5 :: r.trace
        else
          some { d with status := st1 } ::
          some { d with status := st1, progress := 10 } ::
          some { d with status := st2, progress := 10 } ::
          some { d with
            status := st2
            progress := 10
            stats := { d.stats with companies := companies.length } } ::
          some B5 ::
            (r.trace ++ [complete_scan r.total_posts r.total_leads r.store]) := by
      rw [hrdef, hB5]
      simp only [run_scan_trace, he1, update_scan_progress_some]
      rw [he2, update_scan_companies_some, he3]
      rw [if_neg (by simp [check_if_scan_cancelled, hcan])]
      split <;> rfl
    rw [hrun]
    by_cases hstop : r.stopped
    · rw [if_pos hstop]
      constructor
      · refine List.chain'_cons.mpr ⟨⟨le_refl _, le_refl _, le_refl _⟩,
          List.chain'_cons.mpr ⟨⟨?_, le_refl _, le_refl _⟩,
          List.chain'_cons.mpr ⟨⟨le_refl _, le_refl _, le_refl _⟩,
          List.chain'_cons.mpr ⟨⟨le_refl _, le_refl _, le_refl _⟩,
          List.chain'_cons.mpr ⟨⟨le_refl _, le_refl _, le_refl _⟩,
            ihChain⟩⟩⟩⟩⟩
        show d.progress ≤ 10
        omega
      · intro x hx
        simp only [List.mem_cons] at hx
        rcases hx with rfl | rfl | rfl | rfl | rfl | hx
        · exact ⟨_, rfl, hiff10 st1 h1ne d.progress (by omega), hlp0⟩
        · exact ⟨_, rfl, hiff10 st1 h1ne 10 (by omega), hlp0⟩
        · exact ⟨_, rfl, hiff10 st2 h2ne 10 (by omega), hlp0⟩
        · exact ⟨_, rfl, hiff10 st2 h2ne 10 (by omega), hlp0⟩
        · exact ⟨_, rfl, hiff10 st3 h3ne 10 (by omega), hlp0⟩
        · obtain ⟨e, rfl, hene, hep, help⟩ := ihMem x hx
          exact ⟨e, rfl, hiff10 e.status hene e.progress hep, help⟩
    · rw [if_neg hstop]
      constructor
      · refine List.chain'_cons.mpr ⟨⟨le_refl _, le_refl _, le_refl _⟩,
          List.chain'_cons.mpr ⟨⟨?_, le_refl _, le_refl _⟩,
          List.chain'_cons.mpr ⟨⟨le_refl _, le_refl _, le_refl _⟩,
          List.chain'_cons.mpr ⟨⟨le_refl _, le_refl _, le_refl _⟩,
          List.chain'_cons.mpr ⟨⟨le_refl _, le_refl _, le_refl _⟩, ?_⟩⟩⟩⟩⟩
        · show d.progress ≤ 10
          omega
        · rw [show (some B5 :: (r.trace ++
              [complete_scan r.total_posts r.total_leads r.store])) =
            ((some B5 :: r.trace) ++
              [complete_scan r.total_posts r.total_leads r.store]) from rfl]
          refine List.Chain'.append ihChain (List.chain'_singleton _) ?_
          intro x hx y hy
          rw [ihLast] at hx
          simp only [Option.mem_def, Option.some_inj] at hx
          simp only [List.head?_cons, Option.mem_def, Option.some_inj] at hy
          subst hx
          subst hy
          rw [ihStore, complete_scan_some]
          exact ⟨by show dF.progress ≤ 100; omega,
            by show dF.stats.posts ≤ r.total_posts; omega,
            by show dF.stats.leads ≤ r.total_leads; omega⟩
      · intro x hx
        simp only [List.mem_cons, List.mem_append, List.mem_singleton,
          List.not_mem_nil, or_false] at hx
        rcases hx with rfl | rfl | rfl | rfl | rfl | hx | rfl
        · exact ⟨_, rfl, hiff10 st1 h1ne d.progress (by omega), hlp0⟩
        · exact ⟨_, rfl, hiff10 st1 h1ne 10 (by omega), hlp0⟩
        · exact ⟨_, rfl, hiff10 st2 h2ne 10 (by omega), hlp0⟩
        · exact ⟨_, rfl, hiff10 st2 h2ne 10 (by omega), hlp0⟩
        · exact ⟨_, rfl, hiff10 st3 h3ne 10 (by omega), hlp0⟩
        · obtain ⟨e, rfl, hene, hep, help⟩ := ihMem x hx
          exact ⟨e, rfl, hiff10 e.status hene e.progress hep, help⟩
        · rw [ihStore, complete_scan_some]
          refine ⟨_, rfl, ?_, ?_⟩
          · constructor
            · intro _; rfl
            · intro _; rfl
          · show r.total_leads ≤ r.total_posts
            omega

/-- Helper: a state whose progress is not 100 and whose status is not
`completed` satisfies the progress-completion biconditional. -/
lemma iff_not100 (st : ScanStatus) (hne : st ≠ ScanStatus.completed)
    (p : Nat) (hp : p ≠ 100) : p = 100 ↔ st = ScanStatus.completed :=
  ⟨fun h => absurd h hp, fun h => absurd h hne⟩

/-- Invariant of the whole persisted history of a job — from the pending
record written by the POST /scan handler through `start_scan_async` and
the worker run, under any interleaving of cancel requests: consecutive
states are monotone, and every persisted state has progress 100 exactly
when its status is `completed`, with leads never exceeding posts. -/
lemma full_trace_spec (req : ScanRequest) (companies : List (List ℚ))
    (sched : List Bool) :
    List.Chain' stepLE (full_trace req companies sched) ∧
    ∀ x ∈ full_trace req companies sched, ∃ e : ScanData,
      x = some e ∧ (e.progress = 100 ↔ e.status = ScanStatus.completed) ∧
      e.stats.leads ≤ e.stats.posts := by
  obtain ⟨st1, he1, hst1⟩ := envStep_char (sched.headD false) (scan_config req)
  have h1ne : st1 ≠ ScanStatus.completed := by
    rcases hst1 with h | h
    · rw [h]; exact fun hcon => ScanStatus.noConfusion hcon
    · rw [h]; exact fun hcon => ScanStatus.noConfusion hcon
  have hspec := run_scan_trace_spec companies (sched.drop 1)
    { { scan_config req with status := st1 } with
      status := ScanStatus.in_progress }
    (fun hcon => ScanStatus.noConfusion hcon) rfl rfl
  have hfull : full_trace req companies sched =
      some (scan_config req) ::
      some { scan_config req with status := st1 } ::
      some { { scan_config req with status := st1 } with
        status := ScanStatus.in_progress } ::
      run_scan_trace companies (sched.drop 1)
        (some { { scan_config req with status := st1 } with
          status := ScanStatus.in_progress }) := by
    simp only [full_trace, save_scan, he1, start_scan_async_some]
  rw [hfull]
  constructor
  · exact List.chain'_cons.mpr ⟨⟨le_refl _, le_refl _, le_refl _⟩,
      List.chain'_cons.mpr ⟨⟨le_refl _, le_refl _, le_refl _⟩, hspec.1⟩⟩
  · intro x hx
    simp only [List.mem_cons] at hx
    rcases hx with rfl | rfl | rfl | hx
    · exact ⟨_, rfl,
        iff_not100 (scan_config req).status
          (fun hcon => ScanStatus.noConfusion hcon)
          (scan_config req).progress (by intro h; simp [scan_config] at h),
        le_refl _⟩
    · exact ⟨_, rfl, iff_not100 st1 h1ne (scan_config req).progress
        (by intro h; simp [scan_config] at h), le_refl _⟩
    · exact ⟨_, rfl,
        iff_not100 ScanStatus.in_progress
          (fun hcon => ScanStatus.noConfusion hcon)
          (scan_config req).progress (by intro h; simp [scan_config] at h),
        le_refl _⟩
    · exact hspec.2 x hx

/-- C8: along every persisted history of a job — for any request, any
discovery outcome and any interleaving of cancel requests with the
worker's writes — the progress field is non-decreasing from each
persisted state to the next, and a persisted state has progress 100
exactly when its status is `completed`. -/
theorem c8_progress_monotone_iff (req : ScanRequest)
    (companies : List (List ℚ)) (sched : List Bool) :
    List.Chain' (fun a b => progOf a ≤ progOf b)
      (full_trace req companies sched) ∧
    ∀ d : ScanData, some d ∈ full_trace req companies sched →
      (d.progress = 100 ↔ d.status = ScanStatus.completed) := by
  obtain ⟨hch, hmem⟩ := full_trace_spec req companies sched
  refine ⟨hch.imp (fun a b h => h.1), ?_⟩
  intro e he
  obtain ⟨e', he', hiff, _⟩ := hmem (some e) he
  cases Option.some_inj.mp he'
  exact hiff

/-- The request used by the C8/C9 witnesses. -/
def exReq : ScanRequest :=
  { location := some "Quebec City"
    radius_km := none
    days_back := none
    milestone_types := none }

/-- The final record of a run of `exReq` with no discovered companies. -/
def exDone : ScanData :=
  { location := "Quebec City"
    radius_km := 50
    days_back := 30
    milestone_types := default_milestone_types
    status := ScanStatus.completed
    progress := 100
    stats := ⟨0, 0, 0⟩
    error := none }

/-- C8 witness: the biconditional at the completed record persisted by a
concrete run with no companies and no cancel request. -/
theorem c8_witness :
    exDone.progress = 100 ↔ exDone.status = ScanStatus.completed :=
  (c8_progress_monotone_iff exReq [] []).2 exDone (by decide)

/-- C9: in every persisted state of every job — for any request, any
discovery outcome and any interleaving of cancel requests — the leads
counter never exceeds the posts counter, and both counters are
non-decreasing from each persisted state to the next. -/
theorem c9_leads_le_posts (req : ScanRequest)
    (companies : List (List ℚ)) (sched : List Bool) :
    (∀ d : ScanData, some d ∈ full_trace req companies sched →
      d.stats.leads ≤ d.stats.posts) ∧
    List.Chain'
      (fun a b => (statsOf a).posts ≤ (statsOf b).posts ∧
        (statsOf a).leads ≤ (statsOf b).leads)
      (full_trace req companies sched) := by
  obtain ⟨hch, hmem⟩ := full_trace_spec req companies sched
  refine ⟨?_, hch.imp (fun a b h => ⟨h.2.1, h.2.2⟩)⟩
  intro e he
  obtain ⟨e', he', _, hlp⟩ := hmem (some e) he
  cases Option.some_inj.mp he'
  exact hlp

/-- C9 witness: the inequality at the completed record persisted by a
concrete run with no companies and no cancel request. -/
theorem c9_witness : exDone.stats.leads ≤ exDone.stats.posts :=
  (c9_leads_le_posts exReq [] []).1 exDone (by decide)
